import Mathlib

/-!
Verification of the CloudP2P coordination core against its specification.

The definitions below are a shallow embedding of the Rust sources:

  * `src/src/common/messages.rs` — the `Message` enum and its variants;
  * `src/src/server/middleware.rs` — the server middleware state
    (`ServerMiddleware`), its message dispatcher `handle_message`, the task
    processor `process_task`, and the failure detector `monitor_heartbeats`;
  * `src/src/client/client.rs` — `ClientCore.send_and_receive_encrypted_image`;
  * `src/src/client/middleware.rs` — `ClientMiddleware.send_request`,
    `execute_task` and the reassignment-polling loop.

Rust `HashMap`s are modelled as association lists with a lookup, an
insert-or-replace and an erase operation; `u64` arithmetic that can wrap is
modelled with an explicit `% 2 ^ 64`; `f64` load scores are modelled as
rationals (only comparisons on them matter to the embedded code).
-/

namespace CloudP2P

/-- Server identifiers (`u32` in the source). -/
abbrev PeerId := Nat

/-- Load scores are `f64` in the source; the embedded code only compares
them, so they are modelled as rationals. -/
abbrev Load := ℚ

/-- Request keys: `(client_name, request_id)` pairs. -/
abbrev RequestKey := String × Nat

-- ===========================================================================
-- Association-list model of Rust HashMap
-- ===========================================================================

/-- Lookup in an association list (model of `HashMap::get`). -/
def alookup {α β : Type} [DecidableEq α] : List (α × β) → α → Option β
  | [], _ => none
  | (k, v) :: t, a => if k = a then some v else alookup t a

/-- Erase every binding of a key (model of `HashMap::remove`; on the
duplicate-free lists a `HashMap` yields, at most one binding exists). -/
def aerase {α β : Type} [DecidableEq α] : List (α × β) → α → List (α × β)
  | [], _ => []
  | (k, v) :: t, a => if k = a then aerase t a else (k, v) :: aerase t a

/-- Insert-or-replace a binding (model of `HashMap::insert`). -/
def ainsert {α β : Type} [DecidableEq α] (l : List (α × β)) (a : α) (b : β) :
    List (α × β) :=
  (a, b) :: aerase l a

/-- A map has no duplicate keys — the invariant every Rust `HashMap`
maintains. -/
abbrev NodupKeys {α β : Type} (l : List (α × β)) : Prop :=
  (l.map Prod.fst).Nodup

-- ===========================================================================
-- Messages (src/src/common/messages.rs)
-- ===========================================================================

/-- The `Message` enum of `common/messages.rs`.  Byte payloads are lists of
byte values; `f64` loads are rationals. -/
inductive Message where
  | Election (from_id : PeerId) (priority : Load)
  | Alive (from_id : PeerId)
  | Coordinator (leader_id : PeerId)
  | Heartbeat (from_id : PeerId) (timestamp : Nat) (load : Load)
  | LeaderQuery
  | LeaderResponse (leader_id : PeerId)
  | TaskAssignmentRequest (client_name : String) (request_id : Nat)
  | TaskAssignmentResponse (request_id : Nat) (assigned_server_id : PeerId)
      (assigned_server_address : String)
  | TaskRequest (client_name : String) (request_id : Nat)
      (secret_image_data : List Nat) (assigned_by_leader : PeerId)
  | TaskResponse (request_id : Nat) (encrypted_image_data : List Nat)
      (success : Bool) (error_message : Option String)
  | TaskAck (client_name : String) (request_id : Nat)
  | TaskStatusQuery (client_name : String) (request_id : Nat)
  | TaskStatusResponse (request_id : Nat) (assigned_server_id : PeerId)
      (assigned_server_address : String)
  | HistoryAdd (client_name : String) (request_id : Nat)
      (assigned_server_id : PeerId) (timestamp : Nat)
  | HistoryRemove (client_name : String) (request_id : Nat)
  | HistorySyncRequest (from_server_id : PeerId)
  | HistorySyncResponse (from_server_id : PeerId)
      (history_entries : List (String × Nat × PeerId × Nat))
deriving DecidableEq, Repr

-- ===========================================================================
-- Server state (src/src/server/middleware.rs)
-- ===========================================================================

/-- The `TaskHistoryEntry` struct of `server/middleware.rs`. -/
structure TaskHistoryEntry where
  client_name : String
  request_id : Nat
  assigned_server_id : PeerId
  timestamp : Nat
deriving DecidableEq, Repr

/-- One peer record of the server configuration (`PeersConfig`). -/
structure PeerInfo where
  id : PeerId
  address : String
deriving DecidableEq, Repr

/-- The parts of `ServerConfig` the embedded code reads: this server's id and
address, and the static peer table. -/
structure ServerConfig where
  id : PeerId
  address : String
  peers : List PeerInfo
deriving DecidableEq, Repr

/-- The mutable coordination state of `ServerMiddleware`: the leader slot, the
election flag, the two heartbeat-derived maps and the replicated task
ledger. -/
structure ServerState where
  current_leader : Option PeerId
  received_alive : Bool
  last_heartbeat_times : List (PeerId × Nat)
  peer_loads : List (PeerId × Load)
  task_history : List (RequestKey × TaskHistoryEntry)
deriving DecidableEq, Repr

/-- The state `ServerMiddleware::new` starts from: no leader, no alive flag,
all maps empty. -/
def initial_state : ServerState :=
  { current_leader := none
    received_alive := false
    last_heartbeat_times := []
    peer_loads := []
    task_history := [] }

-- ===========================================================================
-- process_task (server/middleware.rs, lines 1018-1121)
-- ===========================================================================

/-- Observable events of a `process_task` run, in program order.  The
vocabulary includes `awaitTaskAck` so that the ack-before-removal ordering
demanded by the specification is statable; the source never produces it. -/
inductive ServerEvent where
  | taskStarted
  | sendResponse (success : Bool)
  | awaitTaskAck (key : RequestKey)
  | historyRemove (key : RequestKey)
  | broadcastHistoryRemove (key : RequestKey)
  | taskFinished
deriving DecidableEq, Repr

/-- Everything a `process_task` run produces: the new middleware state, the
`TaskResponse` handed back on the response channel, the frames broadcast to
the peers, and the ordered event trace. -/
structure ProcessTaskResult where
  state : ServerState
  response : Message
  broadcasts : List Message
  events : List ServerEvent
deriving Repr

/-- Embedding of `process_task` (server/middleware.rs:1018-1121).  The
encryption performed by `ServerCore.encrypt_image` is an oracle argument
`enc`; on `Ok` the spawned task sends a successful `TaskResponse`, on `Err` a
failed one, and in both cases it then removes the request from its own
`task_history` and broadcasts `HistoryRemove` before decrementing the task
counter. -/
def process_task (s : ServerState) (client_name : String) (request_id : Nat)
    (enc : Except String (List Nat)) : ProcessTaskResult :=
  let response :=
    match enc with
    | .ok encrypted_data =>
        Message.TaskResponse request_id encrypted_data true none
    | .error e =>
        Message.TaskResponse request_id [] false (some e)
  { state :=
      { s with task_history := aerase s.task_history (client_name, request_id) }
    response := response
    broadcasts := [Message.HistoryRemove client_name request_id]
    events :=
      [ ServerEvent.taskStarted
      , ServerEvent.sendResponse (match enc with | .ok _ => true | .error _ => false)
      , ServerEvent.historyRemove (client_name, request_id)
      , ServerEvent.broadcastHistoryRemove (client_name, request_id)
      , ServerEvent.taskFinished ] }

-- ===========================================================================
-- Dispatch planning (TaskAssignmentRequest arm, server/middleware.rs:604-628)
-- ===========================================================================

/-- The selection loop of the `TaskAssignmentRequest` arm
(server/middleware.rs:604-613): start from the leader's own `(id, load)` and
replace the current best only on a strictly smaller load, scanning the
`peer_loads` snapshot in its (unspecified `HashMap`) iteration order. -/
def select_best_server (my_id : PeerId) (my_load : Load)
    (peer_loads : List (PeerId × Load)) : PeerId × Load :=
  peer_loads.foldl
    (fun best p => if p.2 < best.2 then (p.1, p.2) else best)
    (my_id, my_load)

/-- Address resolution for the chosen server
(server/middleware.rs:616-628): own address if the winner is this server,
else the static peer table, defaulting to the empty string. -/
def resolve_address (config : ServerConfig) (best_server : PeerId) : String :=
  if best_server = config.id then config.address
  else ((config.peers.find? (fun p => p.id = best_server)).map
    (fun p => p.address)).getD ""

-- ===========================================================================
-- handle_message (server/middleware.rs, lines 452-718)
-- ===========================================================================

/-- Result of one `handle_message` call: the updated middleware state, the
message (if any) written back on the incoming connection, the frames queued
for broadcast to all peers, and the frame (if any) sent point-to-point to a
single peer. -/
structure HandleResult where
  state : ServerState
  response : Option Message
  broadcasts : List Message
  to_peer : Option (PeerId × Message)
deriving Repr

/-- Embedding of `handle_message` (server/middleware.rs:452-718).  Oracle
arguments stand for the non-deterministic inputs the arms sample:
`my_priority` for `metrics.calculate_priority()`, `my_load` for
`metrics.get_load()`, `now` for `current_timestamp()`, and `enc` for the
encryption outcome inside `process_task`.  The final catch-all arm of the
source ignores every other message — in particular `TaskAck` and
`TaskStatusQuery` have no arm. -/
def handle_message (config : ServerConfig) (my_priority my_load : Load)
    (now : Nat) (enc : Except String (List Nat)) (s : ServerState)
    (message : Message) : HandleResult :=
  match message with
  | .Election from_id priority =>
      if my_priority < priority then
        { state := s
          response := none
          broadcasts := []
          to_peer := some (from_id, Message.Alive config.id) }
      else
        { state := s, response := none, broadcasts := [], to_peer := none }
  | .Alive _ =>
      { state := { s with received_alive := true }
        response := none
        broadcasts := []
        to_peer := none }
  | .Coordinator leader_id =>
      { state := { s with current_leader := some leader_id }
        response := none
        broadcasts := []
        to_peer := none }
  | .Heartbeat from_id timestamp load =>
      { state :=
          { s with
            last_heartbeat_times := ainsert s.last_heartbeat_times from_id timestamp
            peer_loads := ainsert s.peer_loads from_id load }
        response := none
        broadcasts := []
        to_peer := none }
  | .LeaderQuery =>
      { state := s, response := none, broadcasts := [], to_peer := none }
  | .TaskRequest client_name request_id _ _ =>
      let r := process_task s client_name request_id enc
      { state := r.state
        response := some r.response
        broadcasts := r.broadcasts
        to_peer := none }
  | .TaskAssignmentRequest client_name request_id =>
      if s.current_leader = some config.id then
        let best := select_best_server config.id my_load s.peer_loads
        let assigned_address := resolve_address config best.1
        let entry : TaskHistoryEntry :=
          { client_name := client_name
            request_id := request_id
            assigned_server_id := best.1
            timestamp := now }
        { state :=
            { s with
              task_history :=
                ainsert s.task_history (client_name, request_id) entry }
          response :=
            some (Message.TaskAssignmentResponse request_id best.1 assigned_address)
          broadcasts :=
            [Message.HistoryAdd client_name request_id best.1 now]
          to_peer := none }
      else
        { state := s, response := none, broadcasts := [], to_peer := none }
  | .HistoryAdd client_name request_id assigned_server_id timestamp =>
      let entry : TaskHistoryEntry :=
        { client_name := client_name
          request_id := request_id
          assigned_server_id := assigned_server_id
          timestamp := timestamp }
      { state :=
          { s with
            task_history :=
              ainsert s.task_history (client_name, request_id) entry }
        response := none
        broadcasts := []
        to_peer := none }
  | .HistoryRemove client_name request_id =>
      { state :=
          { s with
            task_history := aerase s.task_history (client_name, request_id) }
        response := none
        broadcasts := []
        to_peer := none }
  | _ =>
      { state := s, response := none, broadcasts := [], to_peer := none }

-- ===========================================================================
-- monitor_heartbeats (server/middleware.rs, lines 772-846)
-- ===========================================================================

/-- Wrapping `u64` subtraction, the release-mode semantics of `now -
last_seen` in the monitor scan. -/
def u64_wrapping_sub (a b : Nat) : Nat :=
  (a % 2 ^ 64 + 2 ^ 64 - b % 2 ^ 64) % 2 ^ 64

/-- Collection of timed-out peers (server/middleware.rs:783-795): every peer
whose `now - last_seen` exceeds the failure timeout, with the `u64`
subtraction wrapping. -/
def timed_out_peers (last_heartbeat_times : List (PeerId × Nat))
    (now timeout : Nat) : List PeerId :=
  last_heartbeat_times.filterMap
    (fun p => if timeout < u64_wrapping_sub now p.2 then some p.1 else none)

/-- Orphaned-task cleanup for one failed peer
(server/middleware.rs:810-833): collect the keys of every history entry whose
assignee is the failed peer, then remove each collected key. -/
def remove_orphaned_tasks (history : List (RequestKey × TaskHistoryEntry))
    (peer_id : PeerId) : List (RequestKey × TaskHistoryEntry) :=
  let orphaned := history.filterMap
    (fun kv => if kv.2.assigned_server_id = peer_id then some kv.1 else none)
  orphaned.foldl aerase history

/-- Per-failed-peer body of the monitor loop (server/middleware.rs:800-844):
drop the peer from both heartbeat maps, sweep its orphaned tasks, and — when
the peer is the leader recorded in the pre-loop snapshot — clear the leader
slot and note that an election must start.  The Boolean in the accumulator
records whether `initiate_election` was reached. -/
def process_failed_peer (leader_snapshot : Option PeerId)
    (acc : ServerState × Bool) (peer_id : PeerId) : ServerState × Bool :=
  let s := acc.1
  let s1 :=
    { s with
      peer_loads := aerase s.peer_loads peer_id
      last_heartbeat_times := aerase s.last_heartbeat_times peer_id
      task_history := remove_orphaned_tasks s.task_history peer_id }
  if leader_snapshot = some peer_id then
    ({ s1 with current_leader := none }, true)
  else
    (s1, acc.2)

/-- One scan of `monitor_heartbeats` (server/middleware.rs:772-846): collect
the timed-out peers, snapshot the current leader, then process each failed
peer in turn.  Returns the new state and whether an election was
initiated. -/
def monitor_scan (s : ServerState) (now timeout : Nat) : ServerState × Bool :=
  let failed := timed_out_peers s.last_heartbeat_times now timeout
  failed.foldl (process_failed_peer s.current_leader) (s, false)

-- ===========================================================================
-- Client core (src/src/client/client.rs, lines 129-243)
-- ===========================================================================

/-- Substring test on character lists, used to model Rust
`str::contains`. -/
def starts_with : List Char → List Char → Bool
  | [], _ => true
  | _ :: _, [] => false
  | a :: as1, b :: bs => a = b && starts_with as1 bs

/-- Substring occurrence on character lists. -/
def has_substring (needle : List Char) : List Char → Bool
  | [] => needle.isEmpty
  | c :: t => starts_with needle (c :: t) || has_substring needle t

/-- Model of Rust `str::contains` for string needles. -/
def str_contains (haystack needle : String) : Bool :=
  has_substring needle.toList haystack.toList

/-- Outcome of `ClientCore.send_and_receive_encrypted_image`
(client/client.rs:156-242) as a function of the `TaskResponse` the server
returned (`none` models a connection error or an unexpected frame) and of the
steganography extraction outcome, which is an oracle here.  On a verified
success the source sends `TaskAck` and returns `Ok`; the response bytes are
threaded through so that `execute_task` can hand them upward per its declared
`Result<Vec<u8>>` interface. -/
def send_and_receive_result (resp : Option Message) (extract_ok : Bool) :
    Except String (List Nat) :=
  match resp with
  | some (.TaskResponse _ encrypted_image_data true _) =>
      if extract_ok then .ok encrypted_image_data
      else .error "Failed to extract embedded image"
  | some (.TaskResponse _ _ false error_message) =>
      .error ("Task failed on server: "
        ++ error_message.getD "Unknown error")
  | _ => .error "Unexpected response or connection closed"

/-- On a verified success the client writes a `TaskAck` frame back on the
same connection (client/client.rs:214-230); on any other outcome it sends
nothing. -/
def client_ack_sent (client_name : String) (request_id : Nat)
    (resp : Option Message) (extract_ok : Bool) : Option Message :=
  match send_and_receive_result resp extract_ok with
  | .ok _ => some (Message.TaskAck client_name request_id)
  | .error _ => none

-- ===========================================================================
-- Client middleware (src/src/client/middleware.rs)
-- ===========================================================================

/-- What one round of the `execute_task` loop does with the result of
`send_and_receive_encrypted_image` (client/middleware.rs:832-885): an `Ok`
returns the bytes, while every `Err` — a connection failure and a
`success=false` `TaskResponse` alike — is logged as a server failure and
followed by `wait_for_reassignment` polling against the failed address. -/
inductive ExecuteTaskStep where
  | returnOk (encrypted_image_data : List Nat)
  | pollReassignment (failed_address : String)
deriving DecidableEq, Repr

/-- The dispatch in `execute_task` on the result of one send attempt
(client/middleware.rs:844-883). -/
def execute_task_step (assigned_address : String)
    (r : Except String (List Nat)) : ExecuteTaskStep :=
  match r with
  | .ok encrypted_image_data => .returnOk encrypted_image_data
  | .error _ => .pollReassignment assigned_address

/-- The task-loss test of `send_request` (client/middleware.rs:738-739):
an error is eligible for resubmission iff its text contains "lost" or
"consecutive polling failures". -/
def is_task_lost (error_msg : String) : Bool :=
  str_contains error_msg "lost"
    || str_contains error_msg "consecutive polling failures"

/-- Outcome of one iteration of the `send_request` resubmission loop. -/
inductive SendRequestStep where
  | finish (result : Option (List Nat))
  | continueLoop (resubmission_attempt : Nat)
deriving DecidableEq, Repr

/-- Embedding of the match on `execute_task`'s result inside `send_request`
(client/middleware.rs:706-783).  In the `Ok` arm the source records metrics
and then evaluates `Some(encrypted_image_data);` — an expression statement
whose value is discarded — so control falls out of the match and the
enclosing `loop` runs again; nothing is returned.  In the `Err` arm a lost
task below the resubmission cap re-enters the loop with the attempt counter
bumped, and anything else returns `None`. -/
def send_request_iteration (resubmission_attempt : Nat)
    (r : Except String (List Nat)) : SendRequestStep :=
  match r with
  | .ok _ => .continueLoop resubmission_attempt
  | .error e =>
      if is_task_lost e ∧ resubmission_attempt < 3 then
        .continueLoop (resubmission_attempt + 1)
      else
        .finish none

/-- Outcome of one polling round of `wait_for_reassignment`
(client/middleware.rs:541-620). -/
inductive PollStep where
  | adopt (server_id : PeerId) (address : String)
  | keepPolling (same_server_count consecutive_failures : Nat)
  | taskLost
deriving DecidableEq, Repr

/-- One round of the `wait_for_reassignment` loop
(client/middleware.rs:559-619): a reply from a different address is adopted
at once; the failed address is retried only after ten same-address replies;
ten consecutive unanswered rounds declare the task lost. -/
def wait_for_reassignment_round (failed_address : String)
    (same_server_count consecutive_failures : Nat)
    (reply : Option (PeerId × String)) : PollStep :=
  match reply with
  | some (server_id, address) =>
      if address ≠ failed_address then
        .adopt server_id address
      else if same_server_count + 1 ≥ 10 then
        .adopt server_id address
      else
        .keepPolling (same_server_count + 1) 0
  | none =>
      if consecutive_failures + 1 ≥ 10 then
        .taskLost
      else
        .keepPolling same_server_count (consecutive_failures + 1)

-- ===========================================================================
-- Ledger operations per key (HistoryAdd / HistoryRemove arms)
-- ===========================================================================

/-- A replicated ledger operation for one fixed `RequestKey`. -/
inductive HistoryOp where
  | add (assigned_server_id : PeerId) (timestamp : Nat)
  | remove
deriving DecidableEq, Repr

/-- Application of one ledger op for a fixed key: exactly what the
`HistoryAdd` and `HistoryRemove` arms of `handle_message`
(server/middleware.rs:675-712) do to `task_history`. -/
def apply_history_op (key : RequestKey)
    (h : List (RequestKey × TaskHistoryEntry)) :
    HistoryOp → List (RequestKey × TaskHistoryEntry)
  | .add a ts => ainsert h key ⟨key.1, key.2, a, ts⟩
  | .remove => aerase h key

/-- Application of a sequence of ledger ops for one key, first op first. -/
def apply_history_ops (key : RequestKey)
    (h : List (RequestKey × TaskHistoryEntry)) (ops : List HistoryOp) :
    List (RequestKey × TaskHistoryEntry) :=
  ops.foldl (apply_history_op key) h

/-- A server state whose `peer_loads` and `last_heartbeat_times` maps hold
entries for exactly the same set of peers. -/
def SameKeys (s : ServerState) : Prop :=
  ∀ k, (alookup s.peer_loads k).isSome
    ↔ (alookup s.last_heartbeat_times k).isSome

-- ===========================================================================
-- Lemmas about the association-list map operations
-- ===========================================================================

@[simp]
theorem alookup_nil {α β : Type} [DecidableEq α] (a : α) :
    alookup ([] : List (α × β)) a = none := rfl

@[simp]
theorem alookup_cons {α β : Type} [DecidableEq α] (k a : α) (v : β)
    (t : List (α × β)) :
    alookup ((k, v) :: t) a = if k = a then some v else alookup t a := rfl

@[simp]
theorem alookup_aerase_self {α β : Type} [DecidableEq α]
    (l : List (α × β)) (a : α) : alookup (aerase l a) a = none := by
  induction l with
  | nil => rfl
  | cons h t ih =>
      obtain ⟨k, v⟩ := h
      by_cases hk : k = a
      · simpa [aerase, hk] using ih
      · simp [aerase, hk, ih]

theorem alookup_aerase_ne {α β : Type} [DecidableEq α]
    (l : List (α × β)) (a b : α) (hab : a ≠ b) :
    alookup (aerase l a) b = alookup l b := by
  induction l with
  | nil => rfl
  | cons h t ih =>
      obtain ⟨k, v⟩ := h
      by_cases hk : k = a
      · subst hk; simp [aerase, hab, ih]
      · by_cases hb : k = b
        · subst hb; simp [aerase, hk]
        · simp [aerase, hk, hb, ih]

@[simp]
theorem alookup_ainsert_self {α β : Type} [DecidableEq α]
    (l : List (α × β)) (a : α) (b : β) : alookup (ainsert l a b) a = some b := by
  simp [ainsert]

theorem alookup_ainsert_ne {α β : Type} [DecidableEq α]
    (l : List (α × β)) (a c : α) (b : β) (hac : a ≠ c) :
    alookup (ainsert l a b) c = alookup l c := by
  simp [ainsert, hac, alookup_aerase_ne l a c hac]

theorem mem_of_alookup_eq_some {α β : Type} [DecidableEq α]
    {l : List (α × β)} {a : α} {b : β} (h : alookup l a = some b) :
    (a, b) ∈ l := by
  induction l with
  | nil => simp [alookup] at h
  | cons hd t ih =>
      obtain ⟨k, v⟩ := hd
      by_cases hk : k = a
      · subst hk
        simp [alookup] at h
        subst h
        exact List.mem_cons_self _ _
      · simp [alookup, hk] at h
        exact List.mem_cons_of_mem _ (ih h)

theorem aerase_sublist {α β : Type} [DecidableEq α]
    (l : List (α × β)) (a : α) : (aerase l a).Sublist l := by
  induction l with
  | nil => simp [aerase]
  | cons h t ih =>
      obtain ⟨k, v⟩ := h
      by_cases hk : k = a
      · simp only [aerase, hk, if_pos rfl]
        exact ih.cons _
      · simp only [aerase, hk, if_neg hk]
        exact ih.cons₂ _

theorem nodupKeys_aerase {α β : Type} [DecidableEq α]
    {l : List (α × β)} (h : NodupKeys l) (a : α) : NodupKeys (aerase l a) :=
  List.Nodup.sublist ((aerase_sublist l a).map Prod.fst) h

theorem alookup_eq_of_mem_of_nodupKeys {α β : Type} [DecidableEq α]
    {l : List (α × β)} {a : α} {b : β} (hnd : NodupKeys l) (hm : (a, b) ∈ l) :
    alookup l a = some b := by
  induction l with
  | nil => simp at hm
  | cons hd t ih =>
      obtain ⟨k, v⟩ := hd
      rcases List.mem_cons.mp hm with hh | ht
      · cases hh
        simp [alookup]
      · have hnd1 : k ∉ t.map Prod.fst ∧ (t.map Prod.fst).Nodup := by
          simpa [NodupKeys, List.nodup_cons] using hnd
        have hk : k ≠ a := by
          intro hk
          subst hk
          exact hnd1.1 (List.mem_map.mpr ⟨(k, b), ht, rfl⟩)
        simp [alookup, hk, ih hnd1.2 ht]

/-- The `HistoryAdd` arm of `handle_message` agrees with
`apply_history_op`. -/
theorem handle_message_historyAdd_eq (config : ServerConfig)
    (mp ml : Load) (now : Nat) (enc : Except String (List Nat))
    (s : ServerState) (cn : String) (rid : Nat) (a : PeerId) (ts : Nat) :
    (handle_message config mp ml now enc s
        (Message.HistoryAdd cn rid a ts)).state.task_history =
      apply_history_op (cn, rid) s.task_history (HistoryOp.add a ts) := rfl

/-- The `HistoryRemove` arm of `handle_message` agrees with
`apply_history_op`. -/
theorem handle_message_historyRemove_eq (config : ServerConfig)
    (mp ml : Load) (now : Nat) (enc : Except String (List Nat))
    (s : ServerState) (cn : String) (rid : Nat) :
    (handle_message config mp ml now enc s
        (Message.HistoryRemove cn rid)).state.task_history =
      apply_history_op (cn, rid) s.task_history HistoryOp.remove := rfl

-- ===========================================================================
-- Claim theorems
-- ===========================================================================

/-- C1: the claim says that when task execution succeeds, `send_request`
returns the encoded bytes as `Some(bytes)` to the caller instead of
continuing the request loop.  The code refutes it: the success arm of
`send_request` (client/middleware.rs:733) evaluates
`Some(encrypted_image_data);` as a discarded expression statement, so the
iteration falls through and the loop continues.  Evaluated at the failing
input (a successful execution returning the byte `0xAB`, first attempt), the
iteration yields `continueLoop`, not `finish (some bytes)`: a fully
successful execution — `TaskResponse{success=true}`, embedded secret
recovered, `TaskAck` sent, bytes handed to `execute_task` — never reaches
the caller. -/
theorem send_request_success_continues_loop :
    send_and_receive_result (some (Message.TaskResponse 1 [171] true none))
        true = Except.ok [171]
      ∧ client_ack_sent "C1" 1
          (some (Message.TaskResponse 1 [171] true none)) true
          = some (Message.TaskAck "C1" 1)
      ∧ execute_task_step "127.0.0.1:5001" (Except.ok [171])
          = ExecuteTaskStep.returnOk [171]
      ∧ send_request_iteration 0 (Except.ok [171])
          = SendRequestStep.continueLoop 0
      ∧ send_request_iteration 0 (Except.ok [171])
          ≠ SendRequestStep.finish (some [171]) := by
  exact ⟨rfl, rfl, rfl, rfl, by decide⟩

/-- C2: the claim says a peer answers `TaskStatusQuery` with
`TaskStatusResponse(assignee, address)` exactly when its `task_history`
contains the key.  The code refutes the "present" direction:
`handle_message` (server/middleware.rs:452-718) has no `TaskStatusQuery` arm,
so the query falls into the final catch-all and no response is sent even when
the ledger holds the key.  Evaluated at the failing input — a peer whose
ledger maps `("C1", 42)` to assignee 2 — the handler returns no response and
leaves the state unchanged. -/
theorem task_status_query_gets_no_response :
    (handle_message ⟨1, "127.0.0.1:5001", [⟨2, "127.0.0.1:5002"⟩]⟩ 0 0 0
        (Except.ok [])
        { initial_state with
          task_history := [(("C1", 42), ⟨"C1", 42, 2, 1000⟩)] }
        (Message.TaskStatusQuery "C1" 42)).response = none
      ∧ alookup
          ({ initial_state with
             task_history := [(("C1", 42), ⟨"C1", 42, 2, 1000⟩)] } :
            ServerState).task_history ("C1", 42) = some ⟨"C1", 42, 2, 1000⟩
      ∧ (handle_message ⟨1, "127.0.0.1:5001", [⟨2, "127.0.0.1:5002"⟩]⟩ 0 0 0
          (Except.ok [])
          { initial_state with
            task_history := [(("C1", 42), ⟨"C1", 42, 2, 1000⟩)] }
          (Message.TaskStatusQuery "C1" 42)).state
          = { initial_state with
              task_history := [(("C1", 42), ⟨"C1", 42, 2, 1000⟩)] } := by
  exact ⟨rfl, by decide, rfl⟩

/-- C3: the claim says the ledger entry is removed and `HistoryRemove`
broadcast only after the client's `TaskAck` has been received.  The code
refutes it: `process_task` (server/middleware.rs:1085-1105) removes the entry
and broadcasts `HistoryRemove` immediately after queueing the `TaskResponse`,
and neither `process_task` nor any `handle_message` arm ever waits for or
reads a `TaskAck`.  Evaluated at the failing input — a completed task
`("C1", 1)` whose ack never arrives — the event trace removes the entry with
no ack-wait event anywhere. -/
theorem process_task_removes_history_without_ack :
    (process_task
        { initial_state with task_history := [(("C1", 1), ⟨"C1", 1, 2, 500⟩)] }
        "C1" 1 (Except.ok [171])).events
      = [ ServerEvent.taskStarted
        , ServerEvent.sendResponse true
        , ServerEvent.historyRemove ("C1", 1)
        , ServerEvent.broadcastHistoryRemove ("C1", 1)
        , ServerEvent.taskFinished ]
      ∧ ServerEvent.awaitTaskAck ("C1", 1)
          ∉ (process_task
              { initial_state with
                task_history := [(("C1", 1), ⟨"C1", 1, 2, 500⟩)] }
              "C1" 1 (Except.ok [171])).events
      ∧ alookup (process_task
            { initial_state with
              task_history := [(("C1", 1), ⟨"C1", 1, 2, 500⟩)] }
            "C1" 1 (Except.ok [171])).state.task_history ("C1", 1) = none
      ∧ (process_task
            { initial_state with
              task_history := [(("C1", 1), ⟨"C1", 1, 2, 500⟩)] }
            "C1" 1 (Except.ok [171])).broadcasts
          = [Message.HistoryRemove "C1" 1] := by
  refine ⟨rfl, by decide, by decide, rfl⟩

/-- C4 counterexample: the claim says a `TaskResponse{success=false}` (for
example the encoder's "too_small") is recorded as a terminal failure with no
reassignment polling.  At the concrete input below, the failed response
becomes an `Err` in `send_and_receive_encrypted_image`
(client/client.rs:233-239) and `execute_task` (client/middleware.rs:844-883)
sends every `Err` into `wait_for_reassignment` polling, so the claim is
false. -/
theorem encoder_failure_triggers_reassignment_polling :
    execute_task_step "127.0.0.1:5003"
        (send_and_receive_result
          (some (Message.TaskResponse 7 [] false (some "too_small"))) true)
      = ExecuteTaskStep.pollReassignment "127.0.0.1:5003" := rfl

/-- C4 amended: for every `TaskResponse` with `success=false` the client
turns the response into an `Err`, and `execute_task` handles that `Err`
exactly like a connection failure: it enters reassignment polling against the
address that produced it; no terminal failure is recorded at this point. -/
theorem task_failure_response_polls_reassignment (request_id : Nat)
    (data : List Nat) (error_message : Option String) (address : String)
    (extract_ok : Bool) :
    execute_task_step address
        (send_and_receive_result
          (some (Message.TaskResponse request_id data false error_message))
          extract_ok)
      = ExecuteTaskStep.pollReassignment address := rfl

/-- C5 counterexample: the claim says load ties are broken by the strictly
lower `PeerId`.  At the concrete input below — the leader is server 3 with
load 5, the snapshot holds peer 1 with the same load 5 — the selection loop
of the `TaskAssignmentRequest` arm keeps the current best on ties (strict
`<`), so server 3 is chosen even though server 1 has the same load and the
lower id. -/
theorem select_best_server_tie_prefers_leader :
    select_best_server 3 5 [(1, 5)] = (3, 5)
      ∧ (select_best_server 3 5 [(1, 5)]).1 ≠ 1 := by
  exact ⟨rfl, by decide⟩

/-- C8 counterexample: the claim says a heartbeat whose timestamp is not
greater than the recorded one is ignored.  At the concrete input below — the
recorded timestamp for peer 7 is 100 and a heartbeat with the older timestamp
50 arrives — the `Heartbeat` arm (server/middleware.rs:511-528)
unconditionally overwrites both maps, so the claim is false. -/
theorem stale_heartbeat_overwrites_last_seen :
    (50 : Nat) ≤ 100
      ∧ alookup (handle_message ⟨1, "127.0.0.1:5001", []⟩ 0 0 0 (Except.ok [])
          { initial_state with
            last_heartbeat_times := [(7, 100)], peer_loads := [(7, 3)] }
          (Message.Heartbeat 7 50 1)).state.last_heartbeat_times 7 = some 50
      ∧ alookup (handle_message ⟨1, "127.0.0.1:5001", []⟩ 0 0 0 (Except.ok [])
          { initial_state with
            last_heartbeat_times := [(7, 100)], peer_loads := [(7, 3)] }
          (Message.Heartbeat 7 50 1)).state.peer_loads 7 = some 1
      ∧ some (50 : Nat) ≠ some (100 : Nat) := by
  refine ⟨by decide, by decide, by decide, by decide⟩

/-- C8 amended: every received heartbeat unconditionally overwrites the
sender's `LastSeen` and `PeerLoad` entries, whatever the previously recorded
timestamp was; the rest of the state is untouched. -/
theorem heartbeat_unconditionally_updates (config : ServerConfig)
    (mp ml : Load) (now : Nat) (enc : Except String (List Nat))
    (s : ServerState) (from_id : PeerId) (timestamp : Nat) (load : Load) :
    alookup (handle_message config mp ml now enc s
        (Message.Heartbeat from_id timestamp load)).state.last_heartbeat_times
        from_id = some timestamp
      ∧ alookup (handle_message config mp ml now enc s
          (Message.Heartbeat from_id timestamp load)).state.peer_loads
          from_id = some load
      ∧ (handle_message config mp ml now enc s
          (Message.Heartbeat from_id timestamp load)).state.current_leader
          = s.current_leader
      ∧ (handle_message config mp ml now enc s
          (Message.Heartbeat from_id timestamp load)).state.task_history
          = s.task_history := by
  refine ⟨?_, ?_, rfl, rfl⟩
  · simp [handle_message]
  · simp [handle_message]

/-- C10 counterexample: the claim says `now - lastSeen` never underflows,
that is `lastSeen ≤ now` holds whenever the failure check evaluates it.  At
the concrete reachable state below — a heartbeat carrying the sender-supplied
timestamp 100 was received, and the monitor scan runs while the local clock
reads 50 — the recorded timestamp exceeds `now`, the wrapping `u64`
subtraction yields `2^64 - 50`, and peer 1 is classified as failed by a
10-second timeout. -/
theorem heartbeat_ahead_of_clock_reaches_monitor :
    alookup (handle_message ⟨2, "127.0.0.1:5002", []⟩ 0 0 0 (Except.ok [])
        initial_state
        (Message.Heartbeat 1 100 1)).state.last_heartbeat_times 1 = some 100
      ∧ ¬ ((100 : Nat) ≤ 50)
      ∧ u64_wrapping_sub 50 100 = 2 ^ 64 - 50
      ∧ 1 ∈ timed_out_peers (handle_message ⟨2, "127.0.0.1:5002", []⟩ 0 0 0
          (Except.ok []) initial_state
          (Message.Heartbeat 1 100 1)).state.last_heartbeat_times 50 10 := by
  refine ⟨by decide, by decide, by decide, by decide⟩

-- ===========================================================================
-- C5 amended: the selection fold computes a minimum-load candidate
-- ===========================================================================

theorem select_fold_spec (l : List (PeerId × Load)) :
    ∀ init : PeerId × Load,
      ((l.foldl (fun best p => if p.2 < best.2 then (p.1, p.2) else best)
            init).2 ≤ init.2
        ∧ ∀ p ∈ l,
            (l.foldl (fun best p => if p.2 < best.2 then (p.1, p.2) else best)
              init).2 ≤ p.2)
      ∧ (l.foldl (fun best p => if p.2 < best.2 then (p.1, p.2) else best)
            init = init
          ∨ l.foldl (fun best p => if p.2 < best.2 then (p.1, p.2) else best)
              init ∈ l) := by
  induction l with
  | nil =>
      intro init
      exact ⟨⟨le_refl _, by simp⟩, Or.inl rfl⟩
  | cons q t ih =>
      intro init
      simp only [List.foldl_cons]
      obtain ⟨⟨h1, h2⟩, h3⟩ := ih (if q.2 < init.2 then (q.1, q.2) else init)
      have hle : (if q.2 < init.2 then (q.1, q.2) else init).2 ≤ init.2 := by
        by_cases hq : q.2 < init.2
        · simpa [hq] using le_of_lt hq
        · simp [hq]
      have hleq : (if q.2 < init.2 then (q.1, q.2) else init).2 ≤ q.2 := by
        by_cases hq : q.2 < init.2
        · simp [hq]
        · simpa [hq] using le_of_not_lt hq
      refine ⟨⟨le_trans h1 hle, ?_⟩, ?_⟩
      · intro p hp
        rcases List.mem_cons.mp hp with rfl | hp2
        · exact le_trans h1 hleq
        · exact h2 p hp2
      · rcases h3 with he | hm
        · rw [he]
          by_cases hq : q.2 < init.2
          · right
            simp [hq]
          · left
            simp [hq]
        · right
          exact List.mem_cons_of_mem _ hm

/-- C5 amended: the assignee chosen by the `TaskAssignmentRequest` arm has
the minimum load over the leader itself and every peer in the `PeerLoad`
snapshot, and it is one of those candidates; ties are NOT broken by lower
`PeerId` — the fold keeps the earlier candidate (the leader first, then
snapshot iteration order) on equal loads. -/
theorem select_best_server_min_load (my_id : PeerId) (my_load : Load)
    (peer_loads : List (PeerId × Load)) :
    ((select_best_server my_id my_load peer_loads).2 ≤ my_load
      ∧ ∀ p ∈ peer_loads,
          (select_best_server my_id my_load peer_loads).2 ≤ p.2)
      ∧ select_best_server my_id my_load peer_loads
          ∈ (my_id, my_load) :: peer_loads := by
  obtain ⟨hmin, hmem⟩ := select_fold_spec peer_loads (my_id, my_load)
  refine ⟨hmin, ?_⟩
  rcases hmem with he | hm
  · rw [select_best_server, he]
    exact List.mem_cons_self _ _
  · exact List.mem_cons_of_mem _ hm

-- ===========================================================================
-- C7: last-writer-wins for per-key ledger operations
-- ===========================================================================

/-- C7: applying any finite nonempty sequence of `HistoryAdd` and
`HistoryRemove` operations for one `RequestKey` to a peer's ledger yields,
for that key, exactly the state the last operation alone produces: present
with the last Add's assignee and timestamp when the sequence ends in an Add,
absent when it ends in a Remove — whatever earlier duplication or replay
occurred. -/
theorem history_ops_last_writer_wins (key : RequestKey)
    (h : List (RequestKey × TaskHistoryEntry)) (ops : List HistoryOp)
    (op : HistoryOp) (hop : ops.getLast? = some op) :
    alookup (apply_history_ops key h ops) key =
      match op with
      | .add a ts => some ⟨key.1, key.2, a, ts⟩
      | .remove => none := by
  rcases List.eq_nil_or_concat ops with rfl | ⟨L, b, rfl⟩
  · simp at hop
  · have hb : b = op := by
      simpa [List.concat_eq_append, List.getLast?_concat] using hop
    subst hb
    simp only [apply_history_ops, List.concat_eq_append, List.foldl_append,
      List.foldl_cons, List.foldl_nil]
    cases b with
    | add a ts => simp [apply_history_op]
    | remove => simp [apply_history_op]

/-- Witness for C7, the spec's scenario 5: delivering
Add, Add, Remove, Add for `("C1", 42)` with assignee 2 leaves the entry
present with assignee 2. -/
theorem history_ops_last_writer_wins_witness :
    ([HistoryOp.add 2 100, HistoryOp.add 2 100, HistoryOp.remove,
        HistoryOp.add 2 100].getLast? = some (HistoryOp.add 2 100))
      ∧ alookup (apply_history_ops ("C1", 42) []
            [HistoryOp.add 2 100, HistoryOp.add 2 100, HistoryOp.remove,
              HistoryOp.add 2 100]) ("C1", 42)
          = some ⟨"C1", 42, 2, 100⟩ :=
  ⟨rfl, history_ops_last_writer_wins ("C1", 42) []
    [HistoryOp.add 2 100, HistoryOp.add 2 100, HistoryOp.remove,
      HistoryOp.add 2 100] (HistoryOp.add 2 100) rfl⟩

-- ===========================================================================
-- C9: PeerLoad and LastSeen always share one key set
-- ===========================================================================

/-- C9: every modelled mutation of `PeerLoad` or `LastSeen` preserves the
shared-key-set invariant: a heartbeat inserts the sender into both maps,
failure detection removes a failed peer from both, and no other
`handle_message` arm touches either map. -/
theorem peer_maps_same_keys_preserved (s : ServerState) (hs : SameKeys s) :
    (∀ (config : ServerConfig) (mp ml : Load) (now : Nat)
        (enc : Except String (List Nat)) (message : Message),
        SameKeys (handle_message config mp ml now enc s message).state)
      ∧ ∀ now timeout : Nat, SameKeys (monitor_scan s now timeout).1 := by
  constructor
  · intro config mp ml now enc message
    cases message with
    | Election from_id priority =>
        simp only [handle_message]
        split <;> exact hs
    | Alive from_id => exact hs
    | Coordinator leader_id => exact hs
    | Heartbeat from_id timestamp load =>
        intro k
        by_cases hk : from_id = k
        · subst hk
          simp [handle_message]
        · simp only [handle_message]
          rw [alookup_ainsert_ne _ _ _ _ hk, alookup_ainsert_ne _ _ _ _ hk]
          exact hs k
    | LeaderQuery => exact hs
    | LeaderResponse leader_id => exact hs
    | TaskAssignmentRequest cn rid =>
        simp only [handle_message]
        split <;> exact hs
    | TaskAssignmentResponse rid a addr => exact hs
    | TaskRequest cn rid d abl => exact hs
    | TaskResponse rid d ok em => exact hs
    | TaskAck cn rid => exact hs
    | TaskStatusQuery cn rid => exact hs
    | TaskStatusResponse rid a addr => exact hs
    | HistoryAdd cn rid a ts => exact hs
    | HistoryRemove cn rid => exact hs
    | HistorySyncRequest a => exact hs
    | HistorySyncResponse a es => exact hs
  · intro now timeout
    have step : ∀ (L : Option PeerId) (acc : ServerState × Bool) (q : PeerId),
        SameKeys acc.1 → SameKeys (process_failed_peer L acc q).1 := by
      intro L acc q hacc k
      by_cases hk : q = k
      · subst hk
        unfold process_failed_peer
        split <;> simp [alookup_aerase_self]
      · unfold process_failed_peer
        split <;>
          · show (alookup (aerase acc.1.peer_loads q) k).isSome
              ↔ (alookup (aerase acc.1.last_heartbeat_times q) k).isSome
            rw [alookup_aerase_ne _ _ _ hk, alookup_aerase_ne _ _ _ hk]
            exact hacc k
    have key : ∀ (l : List PeerId) (acc : ServerState × Bool),
        SameKeys acc.1 →
        SameKeys ((l.foldl (process_failed_peer s.current_leader) acc).1) := by
      intro l
      induction l with
      | nil => intro acc hacc; exact hacc
      | cons q t ih =>
          intro acc hacc
          simp only [List.foldl_cons]
          exact ih _ (step _ acc q hacc)
    exact key _ (s, false) hs

/-- Witness for C9 at a concrete state: the invariant holds initially and is
preserved through a monitor scan. -/
theorem peer_maps_same_keys_preserved_witness :
    SameKeys initial_state ∧ SameKeys (monitor_scan initial_state 0 0).1 :=
  ⟨fun _ => Iff.rfl,
    (peer_maps_same_keys_preserved initial_state (fun _ => Iff.rfl)).2 0 0⟩

-- ===========================================================================
-- Helper lemmas for the monitor scan (C6, C10)
-- ===========================================================================

theorem alookup_aerase_none {α β : Type} [DecidableEq α]
    {l : List (α × β)} {a : α} (h : alookup l a = none) (q : α) :
    alookup (aerase l q) a = none := by
  by_cases hq : q = a
  · subst hq
    exact alookup_aerase_self l q
  · rw [alookup_aerase_ne _ _ _ hq]
    exact h

theorem alookup_foldl_aerase_none {α β : Type} [DecidableEq α]
    (keys : List α) :
    ∀ (h : List (α × β)) {a : α}, alookup h a = none →
      alookup (keys.foldl aerase h) a = none := by
  induction keys with
  | nil => intro h a ha; exact ha
  | cons q t ih =>
      intro h a ha
      simp only [List.foldl_cons]
      exact ih _ (alookup_aerase_none ha q)

theorem alookup_foldl_aerase_of_mem {α β : Type} [DecidableEq α]
    (keys : List α) :
    ∀ (h : List (α × β)) {a : α}, a ∈ keys →
      alookup (keys.foldl aerase h) a = none := by
  induction keys with
  | nil => intro h a ha; simp at ha
  | cons q t ih =>
      intro h a ha
      simp only [List.foldl_cons]
      by_cases hq : a ∈ t
      · exact ih _ hq
      · have haq : a = q := by
          rcases List.mem_cons.mp ha with h1 | h2
          · exact h1
          · exact absurd h2 hq
        subst haq
        exact alookup_foldl_aerase_none t _ (alookup_aerase_self _ _)

theorem alookup_foldl_aerase_not_mem {α β : Type} [DecidableEq α]
    (keys : List α) :
    ∀ (h : List (α × β)) {a : α}, a ∉ keys →
      alookup (keys.foldl aerase h) a = alookup h a := by
  induction keys with
  | nil => intro h a _; rfl
  | cons q t ih =>
      intro h a ha
      have hq : q ≠ a := fun hq => ha (hq ▸ List.mem_cons_self q t)
      have ht : a ∉ t := fun hm => ha (List.mem_cons_of_mem _ hm)
      simp only [List.foldl_cons]
      rw [ih _ ht, alookup_aerase_ne _ _ _ hq]

theorem nodupKeys_foldl_aerase {α β : Type} [DecidableEq α] (keys : List α) :
    ∀ {h : List (α × β)}, NodupKeys h → NodupKeys (keys.foldl aerase h) := by
  induction keys with
  | nil => intro h hh; exact hh
  | cons q t ih =>
      intro h hh
      simp only [List.foldl_cons]
      exact ih (nodupKeys_aerase hh q)

theorem remove_orphaned_none {h : List (RequestKey × TaskHistoryEntry)}
    {k : RequestKey} (hk : alookup h k = none) (p : PeerId) :
    alookup (remove_orphaned_tasks h p) k = none :=
  alookup_foldl_aerase_none _ _ hk

theorem remove_orphaned_removes {h : List (RequestKey × TaskHistoryEntry)}
    {k : RequestKey} {e : TaskHistoryEntry} {p : PeerId}
    (hk : alookup h k = some e) (hp : e.assigned_server_id = p) :
    alookup (remove_orphaned_tasks h p) k = none := by
  apply alookup_foldl_aerase_of_mem
  exact List.mem_filterMap.mpr
    ⟨(k, e), mem_of_alookup_eq_some hk, by simp [hp]⟩

theorem remove_orphaned_keeps {h : List (RequestKey × TaskHistoryEntry)}
    {k : RequestKey} {e : TaskHistoryEntry} {p : PeerId}
    (hnd : NodupKeys h) (hk : alookup h k = some e)
    (hp : e.assigned_server_id ≠ p) :
    alookup (remove_orphaned_tasks h p) k = some e := by
  rw [remove_orphaned_tasks, alookup_foldl_aerase_not_mem]
  · exact hk
  · intro hm
    obtain ⟨⟨k2, e2⟩, hmem, he⟩ := List.mem_filterMap.mp hm
    by_cases h2 : e2.assigned_server_id = p
    · simp only [h2, if_pos rfl] at he
      cases he
      have hlk := alookup_eq_of_mem_of_nodupKeys hnd hmem
      rw [hk] at hlk
      cases hlk
      exact hp h2
    · simp [h2] at he

theorem nodupKeys_remove_orphaned {h : List (RequestKey × TaskHistoryEntry)}
    (hnd : NodupKeys h) (p : PeerId) :
    NodupKeys (remove_orphaned_tasks h p) :=
  nodupKeys_foldl_aerase _ hnd

theorem pfp_peer_loads (L : Option PeerId) (acc : ServerState × Bool)
    (q : PeerId) :
    (process_failed_peer L acc q).1.peer_loads = aerase acc.1.peer_loads q := by
  simp only [process_failed_peer]
  split <;> rfl

theorem pfp_last_heartbeat (L : Option PeerId) (acc : ServerState × Bool)
    (q : PeerId) :
    (process_failed_peer L acc q).1.last_heartbeat_times
      = aerase acc.1.last_heartbeat_times q := by
  simp only [process_failed_peer]
  split <;> rfl

theorem pfp_task_history (L : Option PeerId) (acc : ServerState × Bool)
    (q : PeerId) :
    (process_failed_peer L acc q).1.task_history
      = remove_orphaned_tasks acc.1.task_history q := by
  simp only [process_failed_peer]
  split <;> rfl

theorem foldl_pfp_peer_maps_none (L : Option PeerId) :
    ∀ (l : List PeerId) (acc : ServerState × Bool) (p : PeerId),
      alookup acc.1.peer_loads p = none →
      alookup acc.1.last_heartbeat_times p = none →
      alookup ((l.foldl (process_failed_peer L) acc).1).peer_loads p = none
        ∧ alookup
            ((l.foldl (process_failed_peer L) acc).1).last_heartbeat_times p
          = none := by
  intro l
  induction l with
  | nil => intro acc p h1 h2; exact ⟨h1, h2⟩
  | cons q t ih =>
      intro acc p h1 h2
      simp only [List.foldl_cons]
      apply ih
      · rw [pfp_peer_loads]
        exact alookup_aerase_none h1 q
      · rw [pfp_last_heartbeat]
        exact alookup_aerase_none h2 q

theorem foldl_pfp_erases (L : Option PeerId) :
    ∀ (l : List PeerId) (acc : ServerState × Bool) (p : PeerId), p ∈ l →
      alookup ((l.foldl (process_failed_peer L) acc).1).peer_loads p = none
        ∧ alookup
            ((l.foldl (process_failed_peer L) acc).1).last_heartbeat_times p
          = none := by
  intro l
  induction l with
  | nil => intro acc p hp; simp at hp
  | cons q t ih =>
      intro acc p hp
      simp only [List.foldl_cons]
      by_cases hpt : p ∈ t
      · exact ih _ p hpt
      · have hpq : p = q := by
          rcases List.mem_cons.mp hp with h1 | h2
          · exact h1
          · exact absurd h2 hpt
        subst hpq
        apply foldl_pfp_peer_maps_none
        · rw [pfp_peer_loads]
          exact alookup_aerase_self _ _
        · rw [pfp_last_heartbeat]
          exact alookup_aerase_self _ _

theorem foldl_pfp_history_none (L : Option PeerId) :
    ∀ (l : List PeerId) (acc : ServerState × Bool) {k : RequestKey},
      alookup acc.1.task_history k = none →
      alookup ((l.foldl (process_failed_peer L) acc).1).task_history k
        = none := by
  intro l
  induction l with
  | nil => intro acc k hk; exact hk
  | cons q t ih =>
      intro acc k hk
      simp only [List.foldl_cons]
      apply ih
      rw [pfp_task_history]
      exact remove_orphaned_none hk q

theorem foldl_pfp_history_remove (L : Option PeerId) :
    ∀ (l : List PeerId) (acc : ServerState × Bool) (k : RequestKey)
      (e : TaskHistoryEntry),
      NodupKeys acc.1.task_history →
      alookup acc.1.task_history k = some e →
      e.assigned_server_id ∈ l →
      alookup ((l.foldl (process_failed_peer L) acc).1).task_history k
        = none := by
  intro l
  induction l with
  | nil => intro acc k e _ _ hp; simp at hp
  | cons q t ih =>
      intro acc k e hnd hk hp
      simp only [List.foldl_cons]
      by_cases hq : e.assigned_server_id = q
      · apply foldl_pfp_history_none
        rw [pfp_task_history]
        exact remove_orphaned_removes hk hq
      · have hpt : e.assigned_server_id ∈ t := by
          rcases List.mem_cons.mp hp with h1 | h2
          · exact absurd h1 hq
          · exact h2
        apply ih _ k e
        · rw [pfp_task_history]
          exact nodupKeys_remove_orphaned hnd q
        · rw [pfp_task_history]
          exact remove_orphaned_keeps hnd hk hq
        · exact hpt

theorem foldl_pfp_history_keep (L : Option PeerId) :
    ∀ (l : List PeerId) (acc : ServerState × Bool) {k : RequestKey}
      {e : TaskHistoryEntry},
      NodupKeys acc.1.task_history →
      alookup acc.1.task_history k = some e →
      e.assigned_server_id ∉ l →
      alookup ((l.foldl (process_failed_peer L) acc).1).task_history k
        = some e := by
  intro l
  induction l with
  | nil => intro acc k e _ hk _; exact hk
  | cons q t ih =>
      intro acc k e hnd hk hnl
      have hq : e.assigned_server_id ≠ q := fun hq =>
        hnl (hq ▸ List.mem_cons_self q t)
      have hnt : e.assigned_server_id ∉ t := fun hm =>
        hnl (List.mem_cons_of_mem _ hm)
      simp only [List.foldl_cons]
      apply ih
      · rw [pfp_task_history]
        exact nodupKeys_remove_orphaned hnd q
      · rw [pfp_task_history]
        exact remove_orphaned_keeps hnd hk hq
      · exact hnt

theorem foldl_pfp_leader_none (L : Option PeerId) :
    ∀ (l : List PeerId) (acc : ServerState × Bool),
      acc.1.current_leader = none → acc.2 = true →
      (l.foldl (process_failed_peer L) acc).1.current_leader = none
        ∧ (l.foldl (process_failed_peer L) acc).2 = true := by
  intro l
  induction l with
  | nil => intro acc h1 h2; exact ⟨h1, h2⟩
  | cons q t ih =>
      intro acc h1 h2
      simp only [List.foldl_cons]
      apply ih
      · simp only [process_failed_peer]
        split
        · rfl
        · exact h1
      · simp only [process_failed_peer]
        split
        · rfl
        · exact h2

theorem foldl_pfp_leader_cleared (p : PeerId) :
    ∀ (l : List PeerId) (acc : ServerState × Bool), p ∈ l →
      (l.foldl (process_failed_peer (some p)) acc).1.current_leader = none
        ∧ (l.foldl (process_failed_peer (some p)) acc).2 = true := by
  intro l
  induction l with
  | nil => intro acc hp; simp at hp
  | cons q t ih =>
      intro acc hp
      simp only [List.foldl_cons]
      by_cases hpq : p = q
      · subst hpq
        apply foldl_pfp_leader_none
        · simp [process_failed_peer]
        · simp [process_failed_peer]
      · have hpt : p ∈ t := by
          rcases List.mem_cons.mp hp with h1 | h2
          · exact absurd h1 hpq
          · exact h2
        exact ih _ hpt

theorem u64_wrapping_sub_of_le {a b : Nat} (h : b ≤ a) (ha : a < 2 ^ 64) :
    u64_wrapping_sub a b = a - b := by
  have hb : b < 2 ^ 64 := lt_of_le_of_lt h ha
  unfold u64_wrapping_sub
  rw [Nat.mod_eq_of_lt ha, Nat.mod_eq_of_lt hb]
  have h1 : a + 2 ^ 64 - b = (a - b) + 2 ^ 64 := by omega
  rw [h1, Nat.add_mod_right]
  exact Nat.mod_eq_of_lt (by omega)

theorem mem_timed_out_of_lookup {lhb : List (PeerId × Nat)} {p : PeerId}
    {ls now timeout : Nat} (hl : alookup lhb p = some ls)
    (ht : timeout < u64_wrapping_sub now ls) :
    p ∈ timed_out_peers lhb now timeout :=
  List.mem_filterMap.mpr
    ⟨(p, ls), mem_of_alookup_eq_some hl, by simp [ht]⟩

-- ===========================================================================
-- C6: the failure detector sweeps a timed-out peer completely
-- ===========================================================================

/-- C6: in one monitor scan, every peer whose recorded heartbeat timestamp is
older than the failure timeout relative to `now` is removed from both
`LastSeen` and `PeerLoad`; every ledger entry assigned to a timed-out peer is
removed while entries assigned to peers that did not time out are kept
unchanged; and when the timed-out peer is the recorded leader, the leader
slot is cleared and an election is initiated. -/
theorem monitor_scan_sweeps_failed_peer (s : ServerState)
    (now timeout : Nat) (p : PeerId) (ls : Nat)
    (hnd : NodupKeys s.task_history)
    (hl : alookup s.last_heartbeat_times p = some ls)
    (hls : ls ≤ now) (hnow : now < 2 ^ 64)
    (ht : timeout < now - ls) :
    alookup (monitor_scan s now timeout).1.peer_loads p = none
      ∧ alookup (monitor_scan s now timeout).1.last_heartbeat_times p = none
      ∧ (∀ k e, alookup s.task_history k = some e →
          e.assigned_server_id = p →
          alookup (monitor_scan s now timeout).1.task_history k = none)
      ∧ (∀ k e, alookup s.task_history k = some e →
          e.assigned_server_id
              ∉ timed_out_peers s.last_heartbeat_times now timeout →
          alookup (monitor_scan s now timeout).1.task_history k = some e)
      ∧ (s.current_leader = some p →
          (monitor_scan s now timeout).1.current_leader = none
            ∧ (monitor_scan s now timeout).2 = true) := by
  have hw : u64_wrapping_sub now ls = now - ls := u64_wrapping_sub_of_le hls hnow
  have hp : p ∈ timed_out_peers s.last_heartbeat_times now timeout :=
    mem_timed_out_of_lookup hl (by rw [hw]; exact ht)
  simp only [monitor_scan]
  refine ⟨?_, ?_, ?_, ?_, ?_⟩
  · exact (foldl_pfp_erases s.current_leader _ (s, false) p hp).1
  · exact (foldl_pfp_erases s.current_leader _ (s, false) p hp).2
  · intro k e hke hass
    exact foldl_pfp_history_remove s.current_leader _ (s, false) k e hnd hke
      (hass ▸ hp)
  · intro k e hke hnin
    exact foldl_pfp_history_keep s.current_leader _ (s, false) hnd hke hnin
  · intro hlead
    rw [hlead]
    exact foldl_pfp_leader_cleared p _ (s, false) hp

/-- Witness for C6 at a concrete state: peer 1 last seen at 100 with the
clock at 200 and a 50-second timeout is swept — removed from both maps, its
ledger entry dropped, the entry of the live peer 2 kept, the leader slot
cleared and an election initiated. -/
theorem monitor_scan_sweeps_failed_peer_witness :
    alookup (monitor_scan
        { current_leader := some 1
          received_alive := false
          last_heartbeat_times := [(1, 100), (2, 195)]
          peer_loads := [(1, 3), (2, 4)]
          task_history :=
            [(("C1", 10), ⟨"C1", 10, 1, 90⟩), (("C1", 11), ⟨"C1", 11, 2, 95⟩)] }
        200 50).1.peer_loads 1 = none
      ∧ alookup (monitor_scan
          { current_leader := some 1
            received_alive := false
            last_heartbeat_times := [(1, 100), (2, 195)]
            peer_loads := [(1, 3), (2, 4)]
            task_history :=
              [(("C1", 10), ⟨"C1", 10, 1, 90⟩),
                (("C1", 11), ⟨"C1", 11, 2, 95⟩)] }
          200 50).1.last_heartbeat_times 1 = none
      ∧ alookup (monitor_scan
          { current_leader := some 1
            received_alive := false
            last_heartbeat_times := [(1, 100), (2, 195)]
            peer_loads := [(1, 3), (2, 4)]
            task_history :=
              [(("C1", 10), ⟨"C1", 10, 1, 90⟩),
                (("C1", 11), ⟨"C1", 11, 2, 95⟩)] }
          200 50).1.task_history ("C1", 10) = none
      ∧ alookup (monitor_scan
          { current_leader := some 1
            received_alive := false
            last_heartbeat_times := [(1, 100), (2, 195)]
            peer_loads := [(1, 3), (2, 4)]
            task_history :=
              [(("C1", 10), ⟨"C1", 10, 1, 90⟩),
                (("C1", 11), ⟨"C1", 11, 2, 95⟩)] }
          200 50).1.task_history ("C1", 11) = some ⟨"C1", 11, 2, 95⟩
      ∧ (monitor_scan
          { current_leader := some 1
            received_alive := false
            last_heartbeat_times := [(1, 100), (2, 195)]
            peer_loads := [(1, 3), (2, 4)]
            task_history :=
              [(("C1", 10), ⟨"C1", 10, 1, 90⟩),
                (("C1", 11), ⟨"C1", 11, 2, 95⟩)] }
          200 50).1.current_leader = none
      ∧ (monitor_scan
          { current_leader := some 1
            received_alive := false
            last_heartbeat_times := [(1, 100), (2, 195)]
            peer_loads := [(1, 3), (2, 4)]
            task_history :=
              [(("C1", 10), ⟨"C1", 10, 1, 90⟩),
                (("C1", 11), ⟨"C1", 11, 2, 95⟩)] }
          200 50).2 = true := by
  have h := monitor_scan_sweeps_failed_peer
    { current_leader := some 1
      received_alive := false
      last_heartbeat_times := [(1, 100), (2, 195)]
      peer_loads := [(1, 3), (2, 4)]
      task_history :=
        [(("C1", 10), ⟨"C1", 10, 1, 90⟩), (("C1", 11), ⟨"C1", 11, 2, 95⟩)] }
    200 50 1 100 (by decide) (by decide) (by decide) (by decide) (by decide)
  refine ⟨h.1, h.2.1, ?_, ?_, ?_, ?_⟩
  · exact h.2.2.1 ("C1", 10) ⟨"C1", 10, 1, 90⟩ (by decide) rfl
  · exact h.2.2.2.1 ("C1", 11) ⟨"C1", 11, 2, 95⟩ (by decide) (by decide)
  · exact (h.2.2.2.2 rfl).1
  · exact (h.2.2.2.2 rfl).2

-- ===========================================================================
-- C10 amended: a heartbeat timestamp ahead of the local clock marks the
-- peer failed via wrapping subtraction
-- ===========================================================================

/-- C10 amended: `lastSeen ≤ now` is not guaranteed at evaluation time —
a heartbeat carries a sender-supplied wall-clock timestamp, and when it
exceeds the local `now` the `u64` subtraction `now - lastSeen` underflows;
under the wrapping release-mode semantics the result is `2^64 - (lastSeen -
now)`, which exceeds any timeout below that bound, so the failure check
classifies the peer as failed. -/
theorem future_heartbeat_marks_peer_failed
    (lhb : List (PeerId × Nat)) (p : PeerId) (ls now timeout : Nat)
    (hl : alookup lhb p = some ls)
    (hnow : now < 2 ^ 64) (hls : ls < 2 ^ 64) (hlt : now < ls)
    (ht : timeout < 2 ^ 64 - (ls - now)) :
    u64_wrapping_sub now ls = 2 ^ 64 - (ls - now)
      ∧ p ∈ timed_out_peers lhb now timeout := by
  have hv : u64_wrapping_sub now ls = 2 ^ 64 - (ls - now) := by
    unfold u64_wrapping_sub
    rw [Nat.mod_eq_of_lt hnow, Nat.mod_eq_of_lt hls]
    have h1 : now + 2 ^ 64 - ls = 2 ^ 64 - (ls - now) := by omega
    rw [h1]
    exact Nat.mod_eq_of_lt (by omega)
  refine ⟨hv, mem_timed_out_of_lookup hl ?_⟩
  rw [hv]
  exact ht

/-- Witness for the amended C10: a peer whose heartbeat timestamp 100 is
ahead of the local clock 50 is classified failed by a 10-second timeout. -/
theorem future_heartbeat_marks_peer_failed_witness :
    u64_wrapping_sub 50 100 = 2 ^ 64 - 50
      ∧ 1 ∈ timed_out_peers [(1, 100)] 50 10 :=
  future_heartbeat_marks_peer_failed [(1, 100)] 1 100 50 10
    (by decide) (by decide) (by decide) (by decide) (by decide)

end CloudP2P
